/-
Verification of the LLBot.CLI launcher (Rust) against its specification.

The development shallowly embeds the launcher's pure logic:
  * `src/updater.rs`  — version parsing/comparison, registry racing, update checks
  * `src/pmhq_client.rs` — SSE event processing and the logged-in flag
  * `src/main.rs` — exit-code decisions, the ctrl-c handler's lock use,
    and the QR-code refresh loop

Effectful boundaries (HTTP responses, channel arrival order, file contents,
the atomic flag's successive read values) are passed in as explicit data, in
the arrival/read order the code would observe them.
-/
import Mathlib

namespace LLBotCLI

/-! ## Version parsing (`src/updater.rs`, `compare_versions`, lines 169-191)

Strings are handled through their character lists so every definition reduces
in the kernel. -/

/-- Rust `str::parse::<u32>`: an optional leading `+`, then one or more ASCII
digits, failing on overflow past `u32::MAX`. -/
def parseU32 (s : List Char) : Option Nat :=
  let t := match s with
    | '+' :: rest => rest
    | _ => s
  if t.isEmpty then none
  else if t.all Char.isDigit then
    let n := t.foldl (fun acc c => acc * 10 + (c.toNat - 48)) 0
    if n < 4294967296 then some n else none
  else none

/-- Rust `str::split(sep)`: each occurrence of `sep` ends a piece; an empty
input yields one empty piece. -/
def splitOnChar (sep : Char) : List Char → List (List Char)
  | [] => [[]]
  | c :: cs =>
    if c == sep then [] :: splitOnChar sep cs
    else
      match splitOnChar sep cs with
      | [] => [[c]]
      | g :: gs => (c :: g) :: gs

/-- One dot-segment: `s.split('-').next()?.parse().ok()` — everything from the
first `-` on is stripped, then the remainder must parse as `u32`. -/
def parseSegment (seg : List Char) : Option Nat :=
  parseU32 (seg.takeWhile (fun c => !(c == '-')))

/-- The `parse_version` closure inside `compare_versions`: strip leading `v`s,
then leading `V`s (`trim_start_matches`), split on `.`, keep the segments
that parse (`filter_map`). -/
def parse_version (v : String) : List Nat :=
  (splitOnChar '.' ((v.data.dropWhile (· == 'v')).dropWhile (· == 'V'))).filterMap
    parseSegment

/-- The `for i in 0..max(len,len)` loop of `compare_versions`: compare the
`i`-th segments (missing → 0); return `true`/`false` at the first difference.
`remaining` counts the loop iterations still to run. -/
def compareAt (cs ls : List Nat) : Nat → Nat → Bool
  | _, 0 => false
  | i, r + 1 =>
    let c := cs.getD i 0
    let l := ls.getD i 0
    if l > c then true
    else if l < c then false
    else compareAt cs ls (i + 1) r

/-- Source `compare_versions(current, latest) -> bool` — `true` iff `latest` is newer. -/
def compare_versions (current latest : String) : Bool :=
  let current_parts := parse_version current
  let latest_parts := parse_version latest
  compareAt current_parts latest_parts 0 (max current_parts.length latest_parts.length)

/-- Specification-shaped restatement of the comparison rule: walk the two
segment lists in parallel, a missing trailing segment counting as zero; the
first (most significant) differing segment decides. -/
def segNewer : List Nat → List Nat → Bool
  | [], [] => false
  | [], l :: ls => if 0 < l then true else segNewer [] ls
  | c :: cs, [] => if 0 < c then false else segNewer cs []
  | c :: cs, l :: ls => if c < l then true else if l < c then false else segNewer cs ls

/-- Zero-padded equality of segment lists. -/
def segEq : List Nat → List Nat → Bool
  | [], [] => true
  | [], l :: ls => l == 0 && segEq [] ls
  | c :: cs, [] => c == 0 && segEq cs []
  | c :: cs, l :: ls => c == l && segEq cs ls

/-! ## Registry racing (`src/updater.rs`, lines 13-18, 73-167, 193-239)

The HTTP boundary is explicit data: for each racing thread the model is told
what message it sends on the mpsc channel, listed in channel arrival order. -/

def NPM_OFFICIAL_REGISTRY : String := "https://registry.npmjs.org"

def NPM_REGISTRY_MIRRORS : List String :=
  ["https://registry.npmmirror.com",
   "https://mirrors.huaweicloud.com/repository/npm",
   "https://mirrors.cloud.tencent.com/npm"]

/-- The `{version}` body of `GET /{pkg}/latest` (`NpmPackageInfo`). -/
structure NpmPackageInfo where
  version : String

/-- The consumer loop `for result in rx { if let Some(x) = result { return x } }`
shared by `fetch_package_info` and `get_best_download_registry`: first
successful message in arrival order, ignoring everything after it. -/
def recvFirstSome {α : Type} : List (Option α) → Option α
  | [] => none
  | some x :: _ => some x
  | none :: rest => recvFirstSome rest

/-- Source `fetch_package_info` (lines 73-121). `primary` is `some info` iff the
official registry answered 200 with a parseable body; `arrivals` lists the
mirror threads' channel messages in arrival order — each thread sends
`some info` for a parseable 200 response and `none` on any failure
(network error, non-200, unparsable body, timeout). -/
def fetch_package_info (package_name : String) (primary : Option NpmPackageInfo)
    (arrivals : List (Option NpmPackageInfo)) : Except String NpmPackageInfo :=
  match primary with
  | some info => Except.ok info
  | none =>
    match recvFirstSome arrivals with
    | some info => Except.ok info
    | none => Except.error ("无法获取 " ++ package_name ++ " 的包信息")

/-- Source `get_best_download_registry` (lines 134-161). `arrivals` lists the channel
messages in arrival order: the thread for mirror `m` sends `some m` iff
`check_version_exists(pkg, version, m)` held, else `none`. Defaults to the
official registry when no mirror confirms. -/
def get_best_download_registry (package_name version : String)
    (arrivals : List (Option String)) : String :=
  match recvFirstSome arrivals with
  | some registry => registry
  | none => NPM_OFFICIAL_REGISTRY

/-- Source `get_tarball_url` (lines 163-167). -/
def get_tarball_url (package_name version : String)
    (arrivals : List (Option String)) : String :=
  let best_registry := get_best_download_registry package_name version arrivals
  let pkg_short_name := String.mk ((splitOnChar '/' package_name.data).getLastD
    package_name.data)
  best_registry ++ "/" ++ package_name ++ "/-/" ++ pkg_short_name ++ "-" ++ version
    ++ ".tgz"

/-- Source `UpdateInfo` (lines 28-35). -/
structure UpdateInfo where
  name : String
  current_version : String
  latest_version : String
  has_update : Bool
  tarball_url : Option String

/-- Source `check_update` (lines 193-221). `fetched` is the `fetch_package_info`
result; `existArrivals` feeds the `get_best_download_registry` race run by
`get_tarball_url` when an update exists. -/
def check_update (name package_name current_version : String)
    (fetched : Except String NpmPackageInfo)
    (existArrivals : List (Option String)) : UpdateInfo :=
  match fetched with
  | Except.ok info =>
    let has_update := compare_versions current_version info.version
    let tarball_url :=
      if has_update then
        some (get_tarball_url package_name info.version existArrivals)
      else none
    { name, current_version, latest_version := info.version, has_update, tarball_url }
  | Except.error _ =>
    { name, current_version, latest_version := "未知", has_update := false,
      tarball_url := none }

/-! ## JSON values and `get_local_version` (`src/updater.rs`, lines 224-239) -/

/-- Minimal model of `serde_json::Value`. -/
inductive JsonValue where
  | null
  | bool (b : Bool)
  | num (n : Int)
  | str (s : String)
  | arr (items : List JsonValue)
  | obj (fields : List (String × JsonValue))

/-- Serde `Value::get(key)`: object field lookup, `None` on non-objects. -/
def JsonValue.get : JsonValue → String → Option JsonValue
  | .obj fields, key => fields.lookup key
  | _, _ => none

/-- Serde `Value::as_str`. -/
def JsonValue.asStr : JsonValue → Option String
  | .str s => some s
  | _ => none

/-- Serde `Value::as_object`, as the field list. -/
def JsonValue.asObj : JsonValue → Option (List (String × JsonValue))
  | .obj fields => some fields
  | _ => none

/-- Source `get_local_version`. `package_json` is the parsed content of the
component's `package.json`; `none` stands for a missing or unparsable file. -/
def get_local_version (component : String) (package_json : Option JsonValue) :
    String :=
  if component == "pmhq" || component == "llbot" || component == "node" then
    match package_json with
    | some json =>
      match (json.get "version").bind JsonValue.asStr with
      | some version => version
      | none => "未安装"
    | none => "未安装"
  else "未知"

/-! ## SSE event processing (`src/pmhq_client.rs`, `start_sse_listener`,
lines 153-240) -/

/-- A parsed `data: {type, data}` frame (`SSEData`). -/
structure SSEData where
  type : Option String
  data : Option JsonValue

/-- The QR branch (lines 186-211): the arguments `(qrcode_url, png_base64)`
passed to `on_qrcode`, or `none` when the callback is not invoked. -/
def qrInvocation (d : SSEData) : Option (String × String) :=
  if d.type = some "nodeIKernelLoginListener" then
    match d.data with
    | some inner =>
      if (inner.get "sub_type").bind JsonValue.asStr = some "onQRCodeGetPicture" then
        match (inner.get "data").bind JsonValue.asObj with
        | some qr_data =>
          let png_base64 :=
            ((qr_data.lookup "pngBase64QrcodeData").bind JsonValue.asStr).getD ""
          let qrcode_url :=
            ((qr_data.lookup "qrcodeUrl").bind JsonValue.asStr).getD ""
          if !(qrcode_url == "") then some (qrcode_url, png_base64) else none
        | none => none
      else none
    | none => none
  else none

/-- Login-completion branch (lines 214-225). -/
def isSessionInitComplete (d : SSEData) : Bool :=
  d.type == some "nodeIQQNTWrapperSessionListener" &&
    (match d.data with
     | some inner =>
       (inner.get "sub_type").bind JsonValue.asStr == some "onSessionInitComplete"
     | none => false)

/-- The `account_ready` branch (lines 228-231). -/
def isAccountReady (d : SSEData) : Bool :=
  d.type == some "account_ready"

/-- Value of the `logged_in` flag after one listener iteration, given the
value read at the loop head: the only stores in the whole program are
`store(true)` on `onSessionInitComplete` (line 221) and on `account_ready`
(line 229); the refresh loop and the top-level reporter only load. -/
def sseStep (logged_in : Bool) (d : SSEData) : Bool :=
  if logged_in then logged_in
  else if isSessionInitComplete d || isAccountReady d then true
  else logged_in

/-- Flag value after the listener processes a list of parsed frames: the
listener returns as soon as the flag is observed or stored true. -/
def sseRun (logged_in : Bool) : List SSEData → Bool
  | [] => logged_in
  | d :: ds =>
    if logged_in then logged_in
    else if isSessionInitComplete d || isAccountReady d then true
    else sseRun logged_in ds

/-! ## The refresh loop (`src/main.rs`, `start_login_listener`, lines 324-339)

`f t` is the value returned by the `t`-th load of the `logged_in` flag the
loop performs; `r t` is the (discarded) success of the QR request issued right
after the load at instant `t`. `fuel` bounds the number of outer cycles. -/

inductive RefreshEvent where
  | request (ok : Bool)
  | sleep1s
deriving DecidableEq

/-- The inner `for _ in 0..120` window: before every one-second sleep the flag
is loaded; a true load breaks out of the window. Returns the events emitted
and the next read instant. -/
def innerLoop (f : Nat → Bool) : Nat → Nat → List RefreshEvent × Nat
  | t, 0 => ([], t)
  | t, n + 1 =>
    if f t then ([], t + 1)
    else
      let rest := innerLoop f (t + 1) n
      (RefreshEvent.sleep1s :: rest.1, rest.2)

/-- The outer loop: load the flag (true breaks the loop), issue
`request_qrcode` with `let _ =` (result discarded), then run the window. -/
def refreshLoop (f : Nat → Bool) (r : Nat → Bool) : Nat → Nat → List RefreshEvent
  | _, 0 => []
  | t, fuel + 1 =>
    if f t then []
    else
      let w := innerLoop f (t + 1) 120
      RefreshEvent.request (r t) :: w.1 ++ refreshLoop f r w.2 fuel

/-- The flag never goes back from true to false (established over the SSE
model by the C8 theorem). -/
def monotoneFlag (f : Nat → Bool) : Prop :=
  ∀ i j, i ≤ j → f i = true → f j = true

/-- Forget the discarded request results, keeping the control flow. -/
def stripResult : RefreshEvent → RefreshEvent
  | .request _ => .request true
  | .sleep1s => .sleep1s

/-! ## The ctrl-c handler's lock (`src/main.rs`, lines 234-245) -/

/-- State of the shared worker-handle mutex at the instant the handler runs. -/
inductive LockState where
  | free
  | heldByOther
  | poisoned
deriving DecidableEq

/-- Outcome of the handler's acquisition attempt. -/
inductive AcquireOutcome where
  | acquiredNow
  | blocksUntilReleased
  | skipsTermination
deriving DecidableEq

/-- Semantics of `std::sync::Mutex::lock`: blocks while another thread holds the lock;
returns `Err` (only) for a poisoned mutex, which makes the handler's
`if let Ok(..)` skip the kill. -/
def stdMutexLock : LockState → AcquireOutcome
  | .free => .acquiredNow
  | .heldByOther => .blocksUntilReleased
  | .poisoned => .skipsTermination

/-- Semantics of `std::sync::Mutex::try_lock`: returns `Err(WouldBlock)` on contention. -/
def stdMutexTryLock : LockState → AcquireOutcome
  | .free => .acquiredNow
  | .heldByOther => .skipsTermination
  | .poisoned => .skipsTermination

/-- The handler at `src/main.rs:238` runs
`if let Ok(mut guard) = child_for_handler.lock()` — the blocking `lock()`
call, not `try_lock()`. -/
def ctrlcHandlerAcquire (s : LockState) : AcquireOutcome :=
  stdMutexLock s

/-! ## Exit codes of `main` (`src/main.rs`, lines 89-311)

The supervised-run path (no `--help`/`--version`/`--update` flag, QQ check
passed): the launcher-level checks run in source order; if all pass, the wait
loop at lines 289-310 `break`s when the worker exits (or on a wait error) and
`main` returns normally. -/

structure LaunchEnv where
  /-- Whether `find_pmhq_exe` returned `Some` (lines 96-103). -/
  pmhq_found : Bool
  /-- Whether `bin/llbot/node` exists (lines 165-172). -/
  node_found : Bool
  /-- Whether `bin/llbot/llbot.js` exists (lines 187-193). -/
  llbot_js_found : Bool
  /-- Whether `find_available_port` returned `Some` (lines 195-198). -/
  port_found : Bool
  /-- Whether `group_spawn` returned `Ok` (lines 221-232). -/
  spawn_ok : Bool
  /-- The code the worker process eventually exits with. -/
  worker_exit_code : Int

/-- All launcher-level checks pass, so the run reaches the wait loop. -/
def supervisedRunStarts (env : LaunchEnv) : Prop :=
  env.pmhq_found = true ∧ env.node_found = true ∧ env.llbot_js_found = true ∧
    env.port_found = true ∧ env.spawn_ok = true

/-- The launcher process's own exit code on this path: each failed check runs
`wait_exit(1)`; after the wait loop breaks, `main` falls off the end, so the
process exits 0 whatever `worker_exit_code` was (the non-zero status is only
printed, line 296). -/
def mainExitCode (env : LaunchEnv) : Int :=
  if !env.pmhq_found then 1
  else if !env.node_found then 1
  else if !env.llbot_js_found then 1
  else if !env.port_found then 1
  else if !env.spawn_ok then 1
  else 0

/-! ## Helper lemmas -/

lemma compareAt_shift (cs ls : List Nat) (r i : Nat) :
    compareAt cs ls (i + 1) r = compareAt cs.tail ls.tail i r := by
  induction r generalizing i with
  | zero => rfl
  | succ r ih =>
    have hc : cs.getD (i + 1) 0 = cs.tail.getD i 0 := by
      cases cs <;> simp [List.getD]
    have hl : ls.getD (i + 1) 0 = ls.tail.getD i 0 := by
      cases ls <;> simp [List.getD]
    simp only [compareAt, hc, hl, ih]

lemma compareAt_zero_eq_segNewer (cs ls : List Nat) :
    compareAt cs ls 0 (max cs.length ls.length) = segNewer cs ls := by
  induction cs generalizing ls with
  | nil =>
    induction ls with
    | nil => simp [compareAt, segNewer]
    | cons l ls ihl =>
      simp only [List.length_nil, List.length_cons, Nat.max_eq_right (Nat.zero_le _)] at ihl ⊢
      simp only [compareAt, List.getD, segNewer, compareAt_shift, List.tail]
      rcases Nat.eq_zero_or_pos l with h0 | hpos
      · subst h0; simpa using ihl
      · simp [hpos, Nat.not_lt_of_lt hpos, hpos.ne.symm]
  | cons c cs ihc =>
    cases ls with
    | nil =>
      simp only [List.length_cons, List.length_nil, Nat.max_eq_left (Nat.zero_le _)]
      simp only [compareAt, List.getD, segNewer, compareAt_shift, List.tail]
      rcases Nat.eq_zero_or_pos c with h0 | hpos
      · subst h0
        have := ihc []
        simpa using this
      · simp [hpos, Nat.not_lt_of_lt hpos]
    | cons l ls =>
      have hmax : max (c :: cs).length (l :: ls).length
          = (max cs.length ls.length) + 1 := by
        simp [List.length_cons, Nat.succ_max_succ]
      rw [hmax]
      simp only [compareAt, List.getD, segNewer, compareAt_shift, List.tail]
      rcases Nat.lt_trichotomy c l with h | h | h
      · simp [h, Nat.not_lt_of_lt h]
      · subst h; simp [Nat.lt_irrefl, ihc ls]
      · simp [h, Nat.not_lt_of_lt h]

lemma compare_versions_eq_segNewer (a b : String) :
    compare_versions a b = segNewer (parse_version a) (parse_version b) := by
  unfold compare_versions
  exact compareAt_zero_eq_segNewer _ _

lemma segNewer_self (xs : List Nat) : segNewer xs xs = false := by
  induction xs with
  | nil => simp [segNewer]
  | cons x xs ih => simp [segNewer, ih]

lemma segNewer_nil_left (ls : List Nat) :
    segNewer [] ls = ls.any (fun n => decide (0 < n)) := by
  induction ls with
  | nil => simp [segNewer]
  | cons l ls ih =>
    by_cases h : 0 < l
    · simp [segNewer, h]
    · simp [segNewer, h, ih]

lemma segNewer_trichotomy (cs ls : List Nat) :
    (segNewer cs ls = !segNewer ls cs) ∨ segEq cs ls = true := by
  induction cs generalizing ls with
  | nil =>
    induction ls with
    | nil => right; simp [segEq]
    | cons l ls ihl =>
      rcases Nat.eq_zero_or_pos l with h0 | hpos
      · subst h0
        rcases ihl with h | h
        · left; simpa [segNewer] using h
        · right; simpa [segEq] using h
      · left; simp [segNewer, hpos, Nat.not_lt_of_lt hpos]
  | cons c cs ihc =>
    cases ls with
    | nil =>
      rcases Nat.eq_zero_or_pos c with h0 | hpos
      · subst h0
        rcases ihc [] with h | h
        · left; simpa [segNewer] using h
        · right; simpa [segEq] using h
      · left; simp [segNewer, hpos, Nat.not_lt_of_lt hpos]
    | cons l ls =>
      rcases Nat.lt_trichotomy c l with h | h | h
      · left; simp [segNewer, h, Nat.not_lt_of_lt h]
      · subst h
        rcases ihc ls with h2 | h2
        · left; simpa [segNewer, Nat.lt_irrefl] using h2
        · right; simpa [segEq] using h2
      · left; simp [segNewer, h, Nat.not_lt_of_lt h]

lemma recvFirstSome_eq_none_iff {α : Type} (xs : List (Option α)) :
    recvFirstSome xs = none ↔ ∀ x ∈ xs, x = none := by
  induction xs with
  | nil => simp [recvFirstSome]
  | cons x rest ih =>
    cases x with
    | none => simp [recvFirstSome, ih]
    | some a => simp [recvFirstSome]

lemma recvFirstSome_first {α : Type} (pre : List (Option α)) (x : α)
    (post : List (Option α)) (h : ∀ y ∈ pre, y = none) :
    recvFirstSome (pre ++ some x :: post) = some x := by
  induction pre with
  | nil => rfl
  | cons y rest ih =>
    have hy : y = none := h y (by simp)
    subst hy
    simpa [recvFirstSome] using ih (fun z hz => h z (by simp [hz]))

lemma innerLoop_all_false (f : Nat → Bool) (n : Nat) :
    ∀ t, (∀ j, j < n → f (t + j) = false) →
      innerLoop f t n = (List.replicate n RefreshEvent.sleep1s, t + n) := by
  induction n with
  | zero => intro t _; simp [innerLoop]
  | succ n ih =>
    intro t h
    have h0 : f t = false := by simpa using h 0 (Nat.succ_pos n)
    have hrec := ih (t + 1) (fun j hj => by
      have := h (j + 1) (Nat.succ_lt_succ hj)
      simpa [Nat.add_assoc, Nat.add_comm 1 j] using this)
    simp only [innerLoop, h0, Bool.false_eq_true, if_false, hrec,
      List.replicate_succ]
    have harith : t + 1 + n = t + (n + 1) := by omega
    rw [harith]

lemma innerLoop_first_true (f : Nat → Bool) :
    ∀ k n t, k < n → (∀ j, j < k → f (t + j) = false) → f (t + k) = true →
      innerLoop f t n = (List.replicate k RefreshEvent.sleep1s, t + k + 1) := by
  intro k
  induction k with
  | zero =>
    intro n t hn _ htrue
    obtain ⟨m, rfl⟩ : ∃ m, n = m + 1 := ⟨n - 1, by omega⟩
    simp only [Nat.add_zero] at htrue
    simp [innerLoop, htrue]
  | succ k ih =>
    intro n t hn hfalse htrue
    obtain ⟨m, rfl⟩ : ∃ m, n = m + 1 := ⟨n - 1, by omega⟩
    have h0 : f t = false := by simpa using hfalse 0 (Nat.succ_pos k)
    have hrec := ih m (t + 1) (by omega)
      (fun j hj => by
        have := hfalse (j + 1) (Nat.succ_lt_succ hj)
        simpa [Nat.add_assoc, Nat.add_comm 1 j] using this)
      (by simpa [Nat.add_assoc, Nat.add_comm 1 k] using htrue)
    simp only [innerLoop, h0, Bool.false_eq_true, if_false, hrec,
      List.replicate_succ]
    have harith : t + 1 + k + 1 = t + (k + 1) + 1 := by omega
    rw [harith]

/-! ## Claim theorems -/

/-- C6 (confirmed): `compare_versions` compares purely numerically on
dot-separated segments, the `-` suffix stripped per segment and missing
trailing segments counting as zero, the more-significant differing segment
deciding (`segNewer` is that rule stated directly); in particular
`compare_versions "1.2.0" "1.10.0" = true` (numeric, not lexical) and equal
versions yield no update. -/
theorem compare_versions_numeric_segment_rule :
    (∀ a b, compare_versions a b = segNewer (parse_version a) (parse_version b)) ∧
    compare_versions "1.2.0" "1.10.0" = true ∧
    (∀ v, compare_versions v v = false) ∧
    compare_versions "1.2" "1.2.0" = false ∧
    compare_versions "1.2.0" "1.2" = false ∧
    compare_versions "1.2.3" "1.2.4-beta.1" = true ∧
    compare_versions "1.3.0" "1.3.0-hotfix" = false := by
  refine ⟨compare_versions_eq_segNewer, by decide, ?_, by decide, by decide,
    by decide, by decide⟩
  intro v
  rw [compare_versions_eq_segNewer]
  exact segNewer_self _

/-- C4 counterexample: the claimed equation
`newer(a,b) == !newer(b,a) || a == b` fails at `a = "1.0"`, `b = "1.0.0"` —
both directions compare false (the parsed segments agree up to zero-padding)
while the strings differ. -/
theorem compare_versions_antisym_fails_strings :
    compare_versions "1.0" "1.0.0" = false ∧
    compare_versions "1.0.0" "1.0" = false ∧
    (("1.0" : String) == "1.0.0") = false := by decide

/-- C4 (corrected): the antisymmetry-except-equality law holds once string
equality is replaced by zero-padded equality of the parsed numeric segment
lists: for all a b, `newer(a,b) == !newer(b,a)` or the parsed segments are
equal up to trailing zeros. -/
theorem compare_versions_antisym_padded (a b : String) :
    (compare_versions a b = !compare_versions b a) ∨
      segEq (parse_version a) (parse_version b) = true := by
  rw [compare_versions_eq_segNewer, compare_versions_eq_segNewer]
  exact segNewer_trichotomy _ _

/-- C3 counterexample: the "not installed" sentinel does not compare as
needing an update against every resolved version — against `"0.0.0"` the
comparison yields `false`. -/
theorem sentinel_no_update_on_zero_version :
    get_local_version "pmhq" none = "未安装" ∧
    compare_versions "未安装" "0.0.0" = false := by
  exact ⟨rfl, by decide⟩

/-- C3 (corrected): the sentinel `"未安装"` returned by `get_local_version`
for absent metadata parses to an empty numeric segment list, so it compares
as needing an update against exactly the resolved versions having at least
one positive numeric segment (all ordinary releases), not against all of
them. -/
theorem sentinel_update_iff_positive_segment :
    (get_local_version "pmhq" none = "未安装" ∧
     get_local_version "llbot" none = "未安装" ∧
     get_local_version "node" none = "未安装" ∧
     parse_version "未安装" = []) ∧
    (∀ v, compare_versions "未安装" v =
      (parse_version v).any (fun n => decide (0 < n))) := by
  refine ⟨⟨rfl, rfl, rfl, by decide⟩, ?_⟩
  intro v
  rw [compare_versions_eq_segNewer]
  have h : parse_version "未安装" = [] := by decide
  rw [h]
  exact segNewer_nil_left _

/-- C5 counterexample: on a contended worker-handle slot the registered
ctrl-c handler's acquisition blocks until the holder releases — it does not
skip termination. -/
theorem ctrlc_handler_blocks_when_contended :
    ctrlcHandlerAcquire LockState.heldByOther
        = AcquireOutcome.blocksUntilReleased ∧
    (ctrlcHandlerAcquire LockState.heldByOther
        == AcquireOutcome.skipsTermination) = false := by
  exact ⟨rfl, by decide⟩

/-- C5 (corrected): the handler acquires the shared slot with the blocking
`Mutex::lock`, so it waits on contention and skips termination only for a
poisoned mutex; the claimed skip-on-contention behaviour is what `try_lock`
(not used by the code) would have given. -/
theorem ctrlc_handler_lock_semantics :
    ctrlcHandlerAcquire LockState.free = AcquireOutcome.acquiredNow ∧
    ctrlcHandlerAcquire LockState.heldByOther
      = AcquireOutcome.blocksUntilReleased ∧
    ctrlcHandlerAcquire LockState.poisoned = AcquireOutcome.skipsTermination ∧
    stdMutexTryLock LockState.heldByOther = AcquireOutcome.skipsTermination := by
  exact ⟨rfl, rfl, rfl, rfl⟩

/-- C1 counterexample: a supervised run whose worker exits with code 5 — the
launcher's own exit code is 0, not the worker's 5. -/
theorem launcher_exit_code_ignores_worker :
    mainExitCode ⟨true, true, true, true, true, 5⟩ = 0 ∧
    (mainExitCode ⟨true, true, true, true, true, 5⟩
        == LaunchEnv.worker_exit_code ⟨true, true, true, true, true, 5⟩)
      = false := by
  exact ⟨rfl, by decide⟩

/-- C1 (corrected): on the supervised-run path the launcher exits 0 whenever
the worker exits, regardless of the worker's exit code (the non-zero status
is only printed); every launcher-level failure — missing worker binary,
missing runtime files, no free port, spawn failure — exits with code 1. -/
theorem launcher_exit_codes (env : LaunchEnv) :
    (supervisedRunStarts env → mainExitCode env = 0) ∧
    ((env.pmhq_found = false ∨ env.port_found = false ∨ env.spawn_ok = false) →
      mainExitCode env = 1) := by
  obtain ⟨p, n, l, pt, s, c⟩ := env
  cases p <;> cases n <;> cases l <;> cases pt <;> cases s <;>
    simp [mainExitCode, supervisedRunStarts]

/-- C1 witness: the amended exit-code law at two concrete environments — a
clean supervised run exits 0, and a run with no free port exits 1. -/
theorem launcher_exit_codes_witness :
    mainExitCode ⟨true, true, true, true, true, 7⟩ = 0 ∧
    mainExitCode ⟨true, true, true, false, true, 7⟩ = 1 := by
  exact ⟨(launcher_exit_codes _).1 ⟨rfl, rfl, rfl, rfl, rfl⟩,
    (launcher_exit_codes _).2 (Or.inr (Or.inl rfl))⟩

/-- C2 counterexample: local `"未安装"` vs resolved `"2.0.0"` with every
mirror thread reporting the artifact missing — `has_update` is true and a
tarball URL is still populated although no registry confirmed the version's
existence. -/
theorem tarball_url_without_confirmation :
    (check_update "LLBot" "llonebot-dist" "未安装"
      (Except.ok ⟨"2.0.0"⟩) [none, none, none]).has_update = true ∧
    (check_update "LLBot" "llonebot-dist" "未安装"
      (Except.ok ⟨"2.0.0"⟩) [none, none, none]).tarball_url.isSome = true ∧
    recvFirstSome ([none, none, none] : List (Option String)) = none := by
  refine ⟨by decide, by decide, by decide⟩

/-- C2 (corrected): the tarball URL is populated exactly when `has_update`
(and never on a resolution failure); `get_best_download_registry` returns the
first mirror confirming the version in channel arrival order and falls back
to the primary registry when no mirror confirms — a URL is produced either
way, without any confirmation from the primary. -/
theorem tarball_url_population_and_fallback :
    (∀ name pkg cur info arrivals,
      (check_update name pkg cur (Except.ok info) arrivals).tarball_url.isSome
        = (check_update name pkg cur (Except.ok info) arrivals).has_update) ∧
    (∀ name pkg cur e arrivals,
      (check_update name pkg cur (Except.error e) arrivals).tarball_url = none) ∧
    (∀ pkg ver arrivals, (∀ x ∈ arrivals, x = none) →
      get_best_download_registry pkg ver arrivals = NPM_OFFICIAL_REGISTRY) ∧
    (∀ pkg ver pre m post, (∀ x ∈ pre, x = none) →
      get_best_download_registry pkg ver (pre ++ some m :: post) = m) := by
  refine ⟨?_, ?_, ?_, ?_⟩
  · intro name pkg cur info arrivals
    simp only [check_update]
    by_cases h : compare_versions cur info.version <;> simp [h]
  · intro name pkg cur e arrivals
    rfl
  · intro pkg ver arrivals h
    simp only [get_best_download_registry,
      (recvFirstSome_eq_none_iff arrivals).mpr h]
  · intro pkg ver pre m post h
    simp only [get_best_download_registry, recvFirstSome_first pre m post h]

/-- C2 witness: the amended law at concrete inputs — all mirrors failing
falls back to the primary registry, and a confirming mirror behind one
failure wins. -/
theorem tarball_url_population_and_fallback_witness :
    get_best_download_registry "llonebot-dist" "2.0.0" [none, none, none]
      = NPM_OFFICIAL_REGISTRY ∧
    get_best_download_registry "llonebot-dist" "2.0.0"
      ([none] ++ some "https://registry.npmmirror.com" :: [none])
      = "https://registry.npmmirror.com" := by
  exact ⟨tarball_url_population_and_fallback.2.2.1 "llonebot-dist" "2.0.0"
      [none, none, none] (by decide),
    tarball_url_population_and_fallback.2.2.2 "llonebot-dist" "2.0.0"
      [none] "https://registry.npmmirror.com" [none] (by decide)⟩

/-- C7 (confirmed): with the primary registry failed, `fetch_package_info`
returns the first parseable mirror success in channel arrival order and
ignores every later message; a primary success short-circuits; and it errors
exactly when the primary and every mirror fail. -/
theorem fetch_package_info_first_success :
    (∀ pkg pre info post, (∀ x ∈ pre, x = none) →
      fetch_package_info pkg none (pre ++ some info :: post)
        = Except.ok info) ∧
    (∀ pkg info arrivals,
      fetch_package_info pkg (some info) arrivals = Except.ok info) ∧
    (∀ pkg primary arrivals,
      (∃ e, fetch_package_info pkg primary arrivals = Except.error e) ↔
        (primary = none ∧ ∀ x ∈ arrivals, x = none)) := by
  refine ⟨?_, ?_, ?_⟩
  · intro pkg pre info post h
    simp only [fetch_package_info, recvFirstSome_first pre info post h]
  · intro pkg info arrivals
    rfl
  · intro pkg primary arrivals
    cases primary with
    | some info =>
      constructor
      · rintro ⟨e, he⟩
        exact absurd he (by simp [fetch_package_info])
      · rintro ⟨h, _⟩
        exact Option.noConfusion h
    | none =>
      cases hr : recvFirstSome arrivals with
      | some info =>
        constructor
        · rintro ⟨e, he⟩
          rw [show fetch_package_info pkg none arrivals = Except.ok info by
            simp [fetch_package_info, hr]] at he
          exact Except.noConfusion he
        · rintro ⟨_, h⟩
          rw [(recvFirstSome_eq_none_iff arrivals).mpr h] at hr
          exact Option.noConfusion hr
      | none =>
        constructor
        · intro _
          exact ⟨rfl, (recvFirstSome_eq_none_iff arrivals).mp hr⟩
        · intro _
          exact ⟨"无法获取 " ++ pkg ++ " 的包信息",
            by simp [fetch_package_info, hr]⟩

/-- C7 witness: with the primary failed, one failing mirror ahead of a
success and another success behind it, the first arriving success is
returned. -/
theorem fetch_package_info_first_success_witness :
    fetch_package_info "llonebot-dist" none
      ([none] ++ some ⟨"1.0.0"⟩ :: [some ⟨"9.9.9"⟩]) = Except.ok ⟨"1.0.0"⟩ := by
  exact fetch_package_info_first_success.1 "llonebot-dist" [none] ⟨"1.0.0"⟩
    [some ⟨"9.9.9"⟩] (by intro x hx; simpa using hx)

/-- C8 (confirmed): the logged-in flag is monotone and one-shot — every store
in the program writes `true` (session-init-complete or account-ready, and
nothing else), so a step never lowers the flag, a listener run started true
stays true, and a run observed true stays true under any extension of the
event stream. -/
theorem logged_in_flag_monotone :
    (∀ b d, sseStep b d = b ∨ sseStep b d = true) ∧
    (∀ d, sseStep true d = true) ∧
    (∀ evs, sseRun true evs = true) ∧
    (∀ b evs more, sseRun b evs = true → sseRun b (evs ++ more) = true) := by
  refine ⟨?_, ?_, ?_, ?_⟩
  · intro b d
    cases b
    · by_cases h : (isSessionInitComplete d || isAccountReady d) = true
      · right; simp [sseStep, h]
      · left; simp [sseStep, h]
    · left; rfl
  · intro d
    rfl
  · intro evs
    cases evs <;> rfl
  · intro b evs more h
    induction evs with
    | nil =>
      simp only [sseRun] at h
      subst h
      cases more <;> rfl
    | cons d ds ih =>
      cases b
      · by_cases hd : (isSessionInitComplete d || isAccountReady d) = true
        · simp [sseRun, hd]
        · simp only [sseRun, Bool.false_eq_true, if_false, hd,
            List.cons_append] at h ⊢
          exact ih h
      · rfl

/-- C8 witness: a run that becomes true via `account_ready` stays true when
the stream is extended by an unrelated event. -/
theorem logged_in_flag_monotone_witness :
    sseRun false ([⟨some "account_ready", none⟩] ++ [⟨some "other", none⟩])
      = true := by
  exact logged_in_flag_monotone.2.2.2 false [⟨some "account_ready", none⟩]
    [⟨some "other", none⟩] (by rfl)

/-- C9 (confirmed): in every refresh-loop cycle, a false flag load is
followed by one QR request whose discarded result never influences the
emitted behaviour; the window then sleeps in one-second increments with a
flag load before each — exactly 120 increments when the flag stays false,
stopping right after the first true load; and once the flag is set
(monotonically), a cycle starts with a true load and issues no further
request. -/
theorem refresh_loop_qr_window :
    (∀ f r r2 t fuel, (refreshLoop f r t fuel).map stripResult
        = (refreshLoop f r2 t fuel).map stripResult) ∧
    (∀ f r t fuel, f t = false → 0 < fuel →
      (refreshLoop f r t fuel).head? = some (RefreshEvent.request (r t))) ∧
    (∀ f t, (∀ j, j < 120 → f (t + j) = false) →
      innerLoop f t 120 = (List.replicate 120 RefreshEvent.sleep1s, t + 120)) ∧
    (∀ f t n k, k < n → (∀ j, j < k → f (t + j) = false) → f (t + k) = true →
      innerLoop f t n = (List.replicate k RefreshEvent.sleep1s, t + k + 1)) ∧
    (∀ f r t fuel, monotoneFlag f → f t = true →
      refreshLoop f r t fuel = []) := by
  refine ⟨?_, ?_, ?_, ?_, ?_⟩
  · intro f r r2 t fuel
    induction fuel generalizing t with
    | zero => rfl
    | succ fuel ih =>
      by_cases h : f t
      · simp [refreshLoop, h]
      · simp only [refreshLoop, h, Bool.false_eq_true, if_false, List.map_cons,
          List.map_append, stripResult, ih]
  · intro f r t fuel hf hfuel
    cases fuel with
    | zero => exact absurd hfuel (by omega)
    | succ m => simp [refreshLoop, hf]
  · intro f t h
    exact innerLoop_all_false f 120 t h
  · intro f t n k hk hfalse htrue
    exact innerLoop_first_true f k n t hk hfalse htrue
  · intro f r t fuel _ ht
    cases fuel with
    | zero => rfl
    | succ m => simp [refreshLoop, ht]

/-- C9 witness: the window law at concrete flags — a never-set flag gives a
request followed by a 120-sleep window; a flag set before the cycle start
gives no events at all; a flag set at the first window check gives a
zero-sleep window. -/
theorem refresh_loop_qr_window_witness :
    (refreshLoop (fun _ => false) (fun _ => true) 0 1).head?
      = some (RefreshEvent.request true) ∧
    innerLoop (fun _ => false) 0 120
      = (List.replicate 120 RefreshEvent.sleep1s, 0 + 120) ∧
    innerLoop (fun _ => true) 0 120
      = (List.replicate 0 RefreshEvent.sleep1s, 0 + 0 + 1) ∧
    refreshLoop (fun _ => true) (fun _ => false) 0 5 = [] := by
  exact ⟨refresh_loop_qr_window.2.1 (fun _ => false) (fun _ => true) 0 1 rfl
      (by omega),
    refresh_loop_qr_window.2.2.1 (fun _ => false) 0 (fun j hj => rfl),
    refresh_loop_qr_window.2.2.2.1 (fun _ => true) 0 120 0 (by omega)
      (fun j hj => absurd hj (Nat.not_lt_zero j)) rfl,
    refresh_loop_qr_window.2.2.2.2 (fun _ => true) (fun _ => false) 0 5
      (fun i j h hi => rfl) rfl⟩

/-- C10 (confirmed): the QR callback is invoked only with a non-empty
extracted `qrcodeUrl`; a QR-ready event whose `qrcodeUrl` is missing or empty
is dropped without invoking the callback, while an empty
`pngBase64QrcodeData` does not prevent invocation. -/
theorem qr_callback_requires_nonempty_url :
    (∀ d url png, qrInvocation d = some (url, png) → url ≠ "") ∧
    qrInvocation ⟨some "nodeIKernelLoginListener",
      some (JsonValue.obj [("sub_type", JsonValue.str "onQRCodeGetPicture"),
        ("data", JsonValue.obj
          [("pngBase64QrcodeData", JsonValue.str "IMG")])])⟩ = none ∧
    qrInvocation ⟨some "nodeIKernelLoginListener",
      some (JsonValue.obj [("sub_type", JsonValue.str "onQRCodeGetPicture"),
        ("data", JsonValue.obj [("pngBase64QrcodeData", JsonValue.str "IMG"),
          ("qrcodeUrl", JsonValue.str "")])])⟩ = none ∧
    qrInvocation ⟨some "nodeIKernelLoginListener",
      some (JsonValue.obj [("sub_type", JsonValue.str "onQRCodeGetPicture"),
        ("data", JsonValue.obj [("pngBase64QrcodeData", JsonValue.str ""),
          ("qrcodeUrl", JsonValue.str "https://qr.example/login")])])⟩
      = some ("https://qr.example/login", "") := by
  refine ⟨?_, rfl, rfl, rfl⟩
  intro d url png h hurl
  subst hurl
  simp only [qrInvocation] at h
  split at h
  · split at h
    · split at h
      · split at h
        · split at h
          · simp_all
          · exact Option.noConfusion h
        · exact Option.noConfusion h
      · exact Option.noConfusion h
    · exact Option.noConfusion h
  · exact Option.noConfusion h

/-- C10 witness: the general law applied to a concrete invoking event (empty
image, non-empty URL). -/
theorem qr_callback_requires_nonempty_url_witness :
    qrInvocation ⟨some "nodeIKernelLoginListener",
      some (JsonValue.obj [("sub_type", JsonValue.str "onQRCodeGetPicture"),
        ("data", JsonValue.obj [("pngBase64QrcodeData", JsonValue.str ""),
          ("qrcodeUrl", JsonValue.str "https://qr.example/login")])])⟩
      = some ("https://qr.example/login", "") ∧
    ("https://qr.example/login" : String) ≠ "" := by
  exact ⟨rfl, qr_callback_requires_nonempty_url.1 ⟨some "nodeIKernelLoginListener",
    some (JsonValue.obj [("sub_type", JsonValue.str "onQRCodeGetPicture"),
      ("data", JsonValue.obj [("pngBase64QrcodeData", JsonValue.str ""),
        ("qrcodeUrl", JsonValue.str "https://qr.example/login")])])⟩
    "https://qr.example/login" "" rfl⟩

end LLBotCLI
